import Mathlib

/-!
Verification development for the minimap extraction / stitching pipeline
(`extract_minimap.py`, `old_extract_minimap.py`, `stitch_minimap.py`).

Images are modelled as RGBA rasters: a width, a height, and a total pixel
function.  Pixel channels are natural numbers; 8-bit wellformedness
(every channel at most 255) is stated explicitly where a proof needs it.
File I/O (fragment presence, decode success, save success) is modelled by
oracle functions, so one run of the pure model corresponds to one run of
the script against a fixed directory state.
-/

/-- One RGBA pixel.  Channels are plain naturals; PIL stores 8-bit values. -/
structure Pixel where
  r : Nat
  g : Nat
  b : Nat
  a : Nat
deriving DecidableEq

/-- All channels fit in 8 bits, as they do for every raster PIL decodes. -/
def Pixel.valid (p : Pixel) : Prop :=
  p.r ≤ 255 ∧ p.g ≤ 255 ∧ p.b ≤ 255 ∧ p.a ≤ 255

instance : DecidablePred Pixel.valid := fun p => by
  unfold Pixel.valid; infer_instance

/-- The fully transparent pixel used for fresh `Image.new('RGBA', …, (0,0,0,0))`
canvases and for regions cropped from outside a source image. -/
def clearPix : Pixel := ⟨0, 0, 0, 0⟩

/-- An RGBA raster: dimensions plus a total pixel map.  Only coordinates
`x < width`, `y < height` are meaningful. -/
structure Image where
  width : Nat
  height : Nat
  pix : Nat → Nat → Pixel

instance : Inhabited Image := ⟨⟨0, 0, fun _ _ => clearPix⟩⟩

/-- Pixel-level equality of rasters: equal dimensions and equal pixels on
every in-bounds coordinate. -/
def imgEq (i j : Image) : Prop :=
  i.width = j.width ∧ i.height = j.height ∧
    ∀ x < i.width, ∀ y < i.height, i.pix x y = j.pix x y

instance (i j : Image) : Decidable (imgEq i j) := by
  unfold imgEq; infer_instance

/-- PIL's `MULDIV255` macro: `tmp = a*b + 128; ((tmp >> 8) + tmp) >> 8`,
a rounding division by 255 used by `Image.paste` blending. -/
def muldiv255 (a b : Nat) : Nat :=
  let tmp := a * b + 128
  (tmp / 256 + tmp) / 256

/-- One channel of PIL's masked paste: blend `t` over `b` by mask value `m`. -/
def blendChan (m b t : Nat) : Nat :=
  muldiv255 b (255 - m) + muldiv255 t m

/-- One pixel of PIL's `paste(tile, pos, tile)`: every channel (alpha
included) is blended by the tile pixel's own alpha. -/
def blendPix (b t : Pixel) : Pixel :=
  ⟨blendChan t.a b.r t.r, blendChan t.a b.g t.g,
   blendChan t.a b.b t.b, blendChan t.a b.a t.a⟩

/-- `base.paste(tile, (0, 0), tile)`: paste `tile` at the origin onto `base`
using the tile's own alpha band as the mask.  The result keeps the base's
dimensions; outside the tile's extent the base shows through. -/
def pasteMask (base tile : Image) : Image :=
  { width := base.width, height := base.height,
    pix := fun x y =>
      if x < tile.width ∧ y < tile.height then blendPix (base.pix x y) (tile.pix x y)
      else base.pix x y }

/-- `img.crop((left, upper, right, lower))` with an integer box.  PIL zero-fills
any part of the box lying outside the source raster. -/
def cropI (img : Image) (left upper right lower : Int) : Image :=
  { width := (right - left).toNat, height := (lower - upper).toNat,
    pix := fun x y =>
      let sx : Int := left + x
      let sy : Int := upper + y
      if 0 ≤ sx ∧ sx < img.width ∧ 0 ≤ sy ∧ sy < img.height
      then img.pix sx.toNat sy.toNat else clearPix }

/-- PIL's RGB→L luma: `(r*19595 + g*38470 + b*7471 + 0x8000) >> 16`. -/
def pilLuma (p : Pixel) : Nat :=
  (p.r * 19595 + p.g * 38470 + p.b * 7471 + 32768) / 65536

/-- One pixel of `convert('L').convert('RGBA')`: luma in each colour channel,
alpha forced to 255. -/
def grayPix (p : Pixel) : Pixel :=
  ⟨pilLuma p, pilLuma p, pilLuma p, 255⟩

/-- `img.convert('L').convert('RGBA')`, applied pixelwise. -/
def grayImage (img : Image) : Image :=
  { width := img.width, height := img.height,
    pix := fun x y => grayPix (img.pix x y) }

/-- Nearest-neighbour stand-in for `img.resize((w, h))`.  The claims below
only ever exercise the branch where no resize happens (decoded size already
equals the expected size), so the resampling filter itself is never relied on. -/
def resizeImage (img : Image) (w h : Nat) : Image :=
  { width := w, height := h,
    pix := fun x y => img.pix (x * img.width / w) (y * img.height / h) }

/-- `get_background_chunk` of `seeder/python_scripts/extract_minimap.py`
(lines 49–91): reject coordinates outside the 6×5 grid, compute the crop box
with inverted Y, clamp `right`/`lower` to the atlas dimensions with only a
warning, then crop and return a copy.  Only `right`/`lower` are clamped, so
on an atlas with width < `x·1000` or height < `(4−y)·1000` the clamped box
is inverted; Pillow's `crop` then raises (`right < left` / `lower < upper`)
and the surrounding `except` returns `None` — the final `if` models that
exception path. -/
def get_background_chunk (x y : Int) (background_image : Image) : Option Image :=
  if x < 0 ∨ x > 5 ∨ y < 0 ∨ y > 4 then none
  else
    let left : Int := x * 1000
    let upper : Int := (4 - y) * 1000
    let right : Int := left + 1000
    let lower : Int := upper + 1000
    let right := min right (background_image.width : Int)
    let lower := min lower (background_image.height : Int)
    if right < left ∨ lower < upper then none
    else some (cropI background_image left upper right lower)

/-- `get_background_chunk` of `old_extract_minimap.py` (lines 29–50): no grid
check, but the whole computed box must lie inside the atlas; otherwise the
function returns `None` instead of clamping. -/
def get_background_chunk_old (x y : Int) (background_image : Image) : Option Image :=
  let bgXStart : Int := x * 1000
  let bgYStart : Int := (4 - y) * 1000
  let bgXEnd : Int := bgXStart + 1000
  let bgYEnd : Int := bgYStart + 1000
  if 0 ≤ bgXStart ∧ bgXStart < (background_image.width : Int) ∧
     0 ≤ bgYStart ∧ bgYStart < (background_image.height : Int) ∧
     bgXEnd ≤ (background_image.width : Int) ∧
     bgYEnd ≤ (background_image.height : Int)
  then some (cropI background_image bgXStart bgYStart bgXEnd bgYEnd)
  else none

/-- `load_tile_from_minimap` (lines 93–123), past the file read: the argument
is the decode outcome for the fragment's bytes (`none` when no PNG signature
is found or decoding throws), and a decoded raster is resized to the expected
size when its size differs. -/
def load_tile_from_minimap (decoded : Option Image) (ew eh : Nat) : Option Image :=
  match decoded with
  | none => none
  | some img =>
      if img.width = ew ∧ img.height = eh then some img
      else some (resizeImage img ew eh)

/-- A grid coordinate `(x, y, z)` as the scripts key their dictionaries. -/
abbrev Coord := Int × Int × Int

/-- Mutable state of `main`'s grid walk in `extract_minimap.py`:
`processed_layer_cache`, `processed_count`, `error_count`.
(The per-category `error_types` counters only feed the log summary.) -/
structure ExtractState where
  cache : List (Coord × Image)
  processed : Nat
  errors : Nat
deriving Inhabited

/-- Steps 2–3 of the Z loop (lines 274–310): given the base raster for this
floor, look at the fragment oracle; `none` means no `.minimap` file,
`some none` a file whose tile failed to load, `some (some img)` a decoded
tile.  Returns the composed raster together with the number of recoverable
errors recorded.  (The `paste` exception branch of the script is unreachable
here because the modelled paste is total.) -/
def composeResult (base : Image) (frag : Option (Option Image)) : Image × Nat :=
  match frag with
  | none => (base, 0)
  | some decoded =>
      match load_tile_from_minimap decoded 1000 1000 with
      | none => (base, 1)
      | some tile => (pasteMask base tile, 0)

/-- Step 4 of the Z loop (lines 312–326): save the result, and cache it only
when the save succeeded; a failed save records one error and caches nothing. -/
def saveAndCache (c : Coord) (img : Image) (saveOK : Bool) (st : ExtractState) :
    ExtractState :=
  if saveOK then
    { st with cache := (c, img) :: st.cache, processed := st.processed + 1 }
  else
    { st with errors := st.errors + 1 }

/-- One full floor iteration given the base lookup's outcome (lines 261–326
for `z > global_min_z`; the `none` branch is the `missing_previous_layer`
error, which records one error, caches nothing, and moves on).  The second
component is the composed raster, when one was produced. -/
def processFloor (frag : Coord → Option (Option Image)) (saveOK : Coord → Bool)
    (x y z : Int) (base? : Option Image) (st : ExtractState) :
    ExtractState × Option Image :=
  match base? with
  | none => ({ st with errors := st.errors + 1 }, none)
  | some base =>
      let rc := composeResult base (frag (x, y, z))
      (saveAndCache (x, y, z) rc.1 (saveOK (x, y, z))
        { st with errors := st.errors + rc.2 }, some rc.1)

/-- The base acquisition plus floor body for one `z` of the inner loop: at
`z = minZ` the base is the background chunk, above that it is the cache entry
for `z - 1`. -/
def floorStep (frag : Coord → Option (Option Image)) (saveOK : Coord → Bool)
    (x y minZ : Int) (chunk : Image) (st : ExtractState) (z : Int) : ExtractState :=
  let base? := if z = minZ then some chunk else st.cache.lookup (x, y, z - 1)
  (processFloor frag saveOK x y z base? st).1

/-- The inner Z loop over a list of floors. -/
def processFloors (frag : Coord → Option (Option Image)) (saveOK : Coord → Bool)
    (x y minZ : Int) (chunk : Image) (st : ExtractState) (zs : List Int) :
    ExtractState :=
  zs.foldl (floorStep frag saveOK x y minZ chunk) st

/-- The ascending floor range `[minZ, maxZ]`. -/
def floorRange (minZ maxZ : Int) : List Int :=
  (List.range (maxZ - minZ + 1).toNat).map (fun i => minZ + (i : Int))

/-- One column `(x, y)` (lines 242–341): fetch the background chunk once; on
failure count every floor of the column as an error and produce nothing
(lines 249–259), otherwise run the ascending Z loop. -/
def processColumn (bg : Image) (frag : Coord → Option (Option Image))
    (saveOK : Coord → Bool) (x y minZ maxZ : Int) (st : ExtractState) :
    ExtractState :=
  match get_background_chunk x y bg with
  | none => { st with errors := st.errors + (maxZ - minZ + 1).toNat }
  | some chunk => processFloors frag saveOK x y minZ chunk st (floorRange minZ maxZ)

/-- The fixed 6×5 grid in loop order: `x` outer `0..5`, `y` inner `0..4`. -/
def gridXY : List (Int × Int) :=
  (List.range 6).foldr
    (fun x acc => ((List.range 5).map (fun y => ((x : Int), (y : Int)))) ++ acc) []

/-- The whole grid walk of `main` (lines 216–341), starting from an empty
cache and zero counters. -/
def extract_main (bg : Image) (frag : Coord → Option (Option Image))
    (saveOK : Coord → Bool) (minZ maxZ : Int) : ExtractState :=
  gridXY.foldl (fun st p => processColumn bg frag saveOK p.1 p.2 minZ maxZ st)
    ⟨[], 0, 0⟩

/-- The `__main__` exit policy of the extract stage (lines 376–382):
exit 1 when `main` returned a positive error count, 0 otherwise. -/
def extract_exit (bg : Image) (frag : Coord → Option (Option Image))
    (saveOK : Coord → Bool) (minZ maxZ : Int) : Nat :=
  if (extract_main bg frag saveOK minZ maxZ).errors > 0 then 1 else 0

/-! ## The stitching stage (`stitch_minimap.py`)

The tool-script variant (`tools/scripts/stitch_minimap.py`) carries the full
bodies of `stitch_layer` and `create_composite`; the seeder variant
(`seeder/python_scripts/stitch_minimap.py`) carries the argument-taking
`main` and the exit policy around those same functions.  Directory listing
and PNG reading are modelled by handing each function the parsed file list
up front: an entry pairs the parsed `(x, y, z)` with `some img` for a
readable PNG and `none` for an empty/unreadable one (the script skips those
with a warning). -/

/-- A parsed `X-Y-Z.png` input of the stitch stage with its read outcome. -/
abbrev TFile := Coord × Option Image

/-- The tiles of one floor, in directory order, as `stitch_layer` filters
them (lines 24–31). -/
def tilesForLayer (files : List TFile) (z : Int) : List ((Int × Int) × Option Image) :=
  (files.filter (fun f => f.1.2.2 = z)).map (fun f => ((f.1.1, f.1.2.1), f.2))

/-- `min`/`max` over a coordinate list, seeded with the first element. -/
def listMinI (seed : Int) (l : List Int) : Int := l.foldl min seed

def listMaxI (seed : Int) (l : List Int) : Int := l.foldl max seed

/-- Lines 78–95 of `stitch_layer`: crop the background chunk for `(x, y)`
(Y inverted against the fixed `max_y = 4`), grayscale it when the floor lies
below the surface threshold (`z_layer < 1`), then paste the tile over it
using the tile's own alpha as mask. -/
def tileChunk (bg : Image) (tw th : Nat) (zLayer : Int) (x y : Int)
    (tile : Image) : Image :=
  let c := cropI bg (x * tw) ((4 - y) * th) (x * tw + tw) ((4 - y) * th + th)
  let c := if zLayer < 1 then grayImage c else c
  pasteMask c tile

/-- `canvas.paste(chunk, (px, py))` without a mask: the chunk's rectangle
fully replaces the canvas content there. -/
def pasteRegion (cv chunk : Image) (px py : Int) : Image :=
  { width := cv.width, height := cv.height,
    pix := fun x y =>
      if px ≤ (x : Int) ∧ (x : Int) < px + chunk.width ∧
         py ≤ (y : Int) ∧ (y : Int) < py + chunk.height
      then chunk.pix ((x : Int) - px).toNat ((y : Int) - py).toNat
      else cv.pix x y }

/-- The per-tile body of `stitch_layer`'s placement loop (lines 67–107):
skip unreadable tiles, otherwise paste the combined background+tile chunk at
`((x - min_x)·tw, (max_y - y)·th)`. -/
def placeTile (bg : Image) (tw th : Nat) (zLayer minX maxY : Int)
    (cv : Image) (t : (Int × Int) × Option Image) : Image :=
  match t.2 with
  | none => cv
  | some tile =>
      pasteRegion cv (tileChunk bg tw th zLayer t.1.1 t.1.2 tile)
        ((t.1.1 - minX) * tw) ((maxY - t.1.2) * th)

/-- `stitch_layer` (lines 19–109): `none` when the floor has no tiles or the
first tile image is unreadable; otherwise the transparent canvas sized to the
floor's bounding box with every readable tile's combined chunk pasted in,
returned together with `min_x`, `min_y`, `max_y`. -/
def stitch_layer (tiles : List ((Int × Int) × Option Image)) (zLayer : Int)
    (bg : Image) : Option (Image × Int × Int × Int) :=
  match tiles with
  | [] => none
  | first :: _ =>
      match first.2 with
      | none => none
      | some firstImg =>
          let xs := tiles.map (fun t => t.1.1)
          let ys := tiles.map (fun t => t.1.2)
          let minX := listMinI first.1.1 xs
          let maxX := listMaxI first.1.1 xs
          let minY := listMinI first.1.2 ys
          let maxY := listMaxI first.1.2 ys
          let tw := firstImg.width
          let th := firstImg.height
          let canvas : Image :=
            ⟨(maxX - minX + 1).toNat * tw, (maxY - minY + 1).toNat * th,
             fun _ _ => clearPix⟩
          some (tiles.foldl (placeTile bg tw th zLayer minX maxY) canvas,
            minX, minY, maxY)

/-- One step of the cover scan: a readable tile whose pasted rectangle
(of size `tw`×`th`) covers pixel `(i, j)` replaces the accumulator. -/
def coverUpd (tw th : Nat) (minX maxY : Int) (i j : Nat)
    (acc : Option ((Int × Int) × Image)) (t : (Int × Int) × Option Image) :
    Option ((Int × Int) × Image) :=
  match t.2 with
  | none => acc
  | some tile =>
      let px : Int := (t.1.1 - minX) * tw
      let py : Int := (maxY - t.1.2) * th
      if px ≤ (i : Int) ∧ (i : Int) < px + tw ∧
         py ≤ (j : Int) ∧ (j : Int) < py + th
      then some (t.1, tile) else acc

/-- Which placed tile owns pixel `(i, j)` of the layer canvas: the last
readable tile in directory order whose pasted rectangle covers it (later
pastes overwrite earlier ones). -/
def lastCover (tw th : Nat) (minX maxY : Int)
    (tiles : List ((Int × Int) × Option Image)) (i j : Nat) :
    Option ((Int × Int) × Image) :=
  tiles.foldl (coverUpd tw th minX maxY i j) none

/-- Insertion sort on integers, standing in for python's `sorted(...)`. -/
def insertSorted (z : Int) : List Int → List Int
  | [] => [z]
  | w :: ws => if z ≤ w then z :: w :: ws else w :: insertSorted z ws

def sortInts (l : List Int) : List Int := l.foldr insertSorted []

/-- `sorted(z_layers)` for the python `set` of floors found in the input. -/
def sortedLayers (files : List TFile) : List Int :=
  sortInts ((files.map (fun f => f.1.2.2)).dedup)

/-- `paste(img, (px, py), img)`: masked paste at an offset, used when layer
mosaics are stacked onto the composite canvas. -/
def pasteMaskAt (base tile : Image) (px py : Int) : Image :=
  { width := base.width, height := base.height,
    pix := fun x y =>
      if px ≤ (x : Int) ∧ (x : Int) < px + tile.width ∧
         py ≤ (y : Int) ∧ (y : Int) < py + tile.height
      then blendPix (base.pix x y)
        (tile.pix ((x : Int) - px).toNat ((y : Int) - py).toNat)
      else base.pix x y }

/-- `create_composite` (lines 111–181): `none` when there are no inputs or
the first input is unreadable (tile size undeterminable); otherwise stack
every available layer mosaic ascending over a transparent canvas, then lay
the accumulated stack over the resized matching background section. -/
def create_composite (files : List TFile) (zLayers : List Int) (bg : Image) :
    Option Image :=
  match files with
  | [] => none
  | first :: _ =>
      match first.2 with
      | none => none
      | some firstImg =>
          let xs := files.map (fun f => f.1.1)
          let ys := files.map (fun f => f.1.2.1)
          let gMinX := listMinI first.1.1 xs
          let gMaxX := listMaxI first.1.1 xs
          let gMinY := listMinI first.1.2.1 ys
          let gMaxY := listMaxI first.1.2.1 ys
          let tw := firstImg.width
          let th := firstImg.height
          let canvas : Image :=
            ⟨(gMaxX - gMinX + 1).toNat * tw, (gMaxY - gMinY + 1).toNat * th,
             fun _ _ => clearPix⟩
          let stacked := (sortInts zLayers).foldl
            (fun comp z =>
              match stitch_layer (tilesForLayer files z) z bg with
              | none => comp
              | some r =>
                  pasteMaskAt comp r.1 ((r.2.1 - gMinX) * tw)
                    ((gMaxY - r.2.2.2) * th))
            canvas
          let bgSection := resizeImage
            (cropI bg (gMinX * tw) ((4 - gMaxY) * th)
              ((gMaxX + 1) * tw) ((4 - gMinY + 1) * th))
            stacked.width stacked.height
          some (pasteMaskAt bgSection stacked 0 0)

/-- Observable outcome of one run of the seeder stitch stage: whether the
composite was written, which layer mosaics were written (with their rasters),
and the error count `main` returns. -/
structure StitchRun where
  savedComposite : Bool
  savedLayers : List (Int × Image)
  errors : Nat

/-- The per-floor body of `main`'s stitch-and-save loop (lines 81–95 of the
seeder variant): stitch the floor, append a saved mosaic on success, count
one error on a layer-save failure, and only warn when stitching fails. -/
def layerSaveStep (files : List TFile) (bg : Image) (layerSaveOK : Int → Bool)
    (acc : List (Int × Image) × Nat) (z : Int) : List (Int × Image) × Nat :=
  match stitch_layer (tilesForLayer files z) z bg with
  | some r => if layerSaveOK z then (acc.1 ++ [(z, r.1)], acc.2)
              else (acc.1, acc.2 + 1)
  | none => acc

/-- `main` of `seeder/python_scripts/stitch_minimap.py` (lines 20–96):
empty input listing or no determinable floors return error count 1 at once;
otherwise the composite is attempted (a creation or save failure is only
printed), and each floor's mosaic is stitched and saved, counting exactly
the layer-save failures.  `compositeSaveOK` / `layerSaveOK` are the
persistence oracles. -/
def stitch_main (files : List TFile) (bg : Image) (compositeSaveOK : Bool)
    (layerSaveOK : Int → Bool) : StitchRun :=
  if files.isEmpty then ⟨false, [], 1⟩
  else
    let zs := sortedLayers files
    if zs.isEmpty then ⟨false, [], 1⟩
    else
      let comp := create_composite files zs bg
      let savedC := comp.isSome && compositeSaveOK
      let run := zs.foldl (layerSaveStep files bg layerSaveOK) ([], 0)
      ⟨savedC, run.1, run.2⟩

/-- The `__main__` exit policy of the stitch stage (lines 108–114). -/
def stitch_exit (r : StitchRun) : Nat := if r.errors > 0 then 1 else 0

/-! ## Object-level view of one compose step

`result_image = base_image.copy(); result_image.paste(tile, (0, 0), tile)`
manipulates PIL image *objects*.  To talk about mutation, a `Store` holds the
live image objects (an object is its index), `copy` appends a fresh object
and `paste` overwrites one object in place. -/

structure Store where
  imgs : List Image

/-- The image object at index `i`. -/
def Store.get (s : Store) (i : Nat) : Image := s.imgs.getD i default

/-- `obj.copy()`: allocate a fresh object holding the same raster; returns
the new store and the fresh object's index. -/
def Store.copyFrom (s : Store) (i : Nat) : Store × Nat :=
  (⟨s.imgs ++ [s.get i]⟩, s.imgs.length)

/-- `obj.paste(tile, (0, 0), tile)`: in-place masked paste on object `dst`. -/
def Store.pasteInto (s : Store) (dst : Nat) (tile : Image) : Store :=
  ⟨s.imgs.set dst (pasteMask (s.get dst) tile)⟩

/-- Lines 274–310 of `extract_minimap.py` at object level: produce the
composed result for one floor from the base object and the fragment outcome.
Returns the new store, the result object's index, and the number of
recoverable errors recorded. -/
def composeObj (s : Store) (baseId : Nat) (frag : Option (Option Image)) :
    Store × Nat × Nat :=
  match frag with
  | none =>
      let c := s.copyFrom baseId
      (c.1, c.2, 0)
  | some decoded =>
      match load_tile_from_minimap decoded 1000 1000 with
      | none =>
          let c := s.copyFrom baseId
          (c.1, c.2, 1)
      | some tile =>
          let c := s.copyFrom baseId
          (c.1.pasteInto c.2 tile, c.2, 0)

/-! ## Concrete rasters and inputs used by the closed theorems -/

/-- A constant background atlas of the expected 6000×5000 size. -/
def bgConst : Image := ⟨6000, 5000, fun _ _ => ⟨10, 20, 30, 255⟩⟩

/-- A background atlas narrower than expected (5500×5000): the script only
warns about the size mismatch. -/
def bgNarrow : Image := ⟨5500, 5000, fun _ _ => ⟨10, 20, 30, 255⟩⟩

/-- A background atlas shorter than expected (6000×3000): for `y = 0` the
crop box's top edge `(4−0)·1000 = 4000` already lies below the atlas, so the
clamped box is inverted and Pillow's `crop` raises. -/
def bgShort : Image := ⟨6000, 3000, fun _ _ => ⟨10, 20, 30, 255⟩⟩

/-- A canonical-size base raster. -/
def base1000 : Image := ⟨1000, 1000, fun _ _ => ⟨40, 50, 60, 255⟩⟩

/-- A non-canonical base raster, as produced by a clamped background crop. -/
def base500 : Image := ⟨500, 1000, fun _ _ => ⟨40, 50, 60, 255⟩⟩

/-- A fully opaque canonical-size decoded tile. -/
def tileOpaque : Image := ⟨1000, 1000, fun _ _ => ⟨5, 6, 7, 255⟩⟩

/-- A 1×1 tile whose only pixel is fully transparent. -/
def tileClear1 : Image := ⟨1, 1, fun _ _ => ⟨9, 9, 9, 0⟩⟩

/-- A readable 1×1 opaque tile for stitch-stage runs. -/
def tile1 : Image := ⟨1, 1, fun _ _ => ⟨1, 2, 3, 255⟩⟩

/-- One readable stitch input at `(0, 0, 0)`. -/
def files1 : List TFile := [((0, 0, 0), some tile1)]

/-- One unreadable stitch input at `(0, 0, 0)`: tile size undeterminable. -/
def filesBad : List TFile := [((0, 0, 0), (none : Option Image))]

/-- The save oracle that fails exactly at `(0, 0, 0)`. -/
def saveFail000 : Coord → Bool := fun c => !(c == ((0 : Int), (0 : Int), (0 : Int)))

/-- The raster saved as `layer_0` in the one-tile reference stitch run. -/
def w10img : Image :=
  ((stitch_main files1 bgConst true (fun _ => true)).savedLayers.headD
    (0, default)).2

/-! ## Theorems -/

theorem Image.ext_pix {i j : Image} (hw : i.width = j.width)
    (hh : i.height = j.height) (hp : i.pix = j.pix) : i = j := by
  cases i; cases j; simp_all

theorem listGetD_append_left {α : Type} (l : List α) (x d : α) (i : Nat)
    (h : i < l.length) : (l ++ [x]).getD i d = l.getD i d := by
  induction l generalizing i with
  | nil => simp at h
  | cons a t ih =>
      cases i with
      | zero => rfl
      | succ n => simpa using ih n (by simpa using h)

theorem listGetD_append_self {α : Type} (l : List α) (x d : α) :
    (l ++ [x]).getD l.length d = x := by
  induction l with
  | nil => rfl
  | cons a t ih =>
      simp only [List.cons_append, List.length_cons, List.getD_cons_succ]
      exact ih

theorem listGetD_set_self {α : Type} (l : List α) (i : Nat) (x d : α)
    (h : i < l.length) : (l.set i x).getD i d = x := by
  induction l generalizing i with
  | nil => simp at h
  | cons a t ih =>
      cases i with
      | zero => rfl
      | succ n => simpa using ih n (by simpa using h)

theorem listGetD_set_ne {α : Type} (l : List α) (i j : Nat) (x d : α)
    (h : i ≠ j) : (l.set i x).getD j d = l.getD j d := by
  induction l generalizing i j with
  | nil => simp
  | cons a t ih =>
      cases i with
      | zero => cases j with
          | zero => exact absurd rfl h
          | succ m => rfl
      | succ n => cases j with
          | zero => rfl
          | succ m => simpa using ih n m (by omega)

theorem muldiv255_right255 (t : Nat) (h : t ≤ 255) : muldiv255 t 255 = t := by
  show ((t * 255 + 128) / 256 + (t * 255 + 128)) / 256 = t
  omega

theorem muldiv255_right0 (b : Nat) : muldiv255 b 0 = 0 := by
  simp [muldiv255]

theorem blendChan_opaque (b t : Nat) (h : t ≤ 255) : blendChan 255 b t = t := by
  unfold blendChan
  rw [Nat.sub_self, muldiv255_right0, muldiv255_right255 t h]
  omega

theorem blendChan_clear (b t : Nat) (h : b ≤ 255) : blendChan 0 b t = b := by
  unfold blendChan
  rw [Nat.sub_zero, muldiv255_right255 b h, muldiv255_right0]
  omega

theorem blendPix_opaque (b t : Pixel) (hv : t.valid) (ha : t.a = 255) :
    blendPix b t = t := by
  obtain ⟨h1, h2, h3, h4⟩ := hv
  cases t
  simp_all [blendPix, blendChan_opaque]

theorem blendPix_clear (b t : Pixel) (hv : b.valid) (ha : t.a = 0) :
    blendPix b t = b := by
  obtain ⟨h1, h2, h3, h4⟩ := hv
  cases b
  simp_all [blendPix, blendChan_clear]

/-- Dimensions pass through one compose step unchanged: the result always has
the base raster's size, whatever the fragment outcome. -/
theorem composeResult_dims (base : Image) (frag : Option (Option Image)) :
    (composeResult base frag).1.width = base.width ∧
    (composeResult base frag).1.height = base.height := by
  cases frag with
  | none => exact ⟨rfl, rfl⟩
  | some d =>
      cases hl : load_tile_from_minimap d 1000 1000 with
      | none => simp [composeResult, hl]
      | some tile => simp [composeResult, hl, pasteMask]

/-- C3 counterexample: on a 5500×5000 atlas the crop box for `(x, y) = (5, 4)`
exceeds the atlas bounds (right edge 6000 > 5500), yet the seeder's
`get_background_chunk` returns a raster — one truncated to width 500 —
instead of the error the claim requires. -/
theorem C3_counterexample :
    (5 : Int) * 1000 + 1000 > (bgNarrow.width : Int) ∧
    (get_background_chunk 5 4 bgNarrow).map Image.width = some 500 := by
  decide

/-- C3 amended: the old script's `get_background_chunk` errors whenever the
computed box exceeds the atlas bounds.  The seeder's clamps the box's
`right`/`lower` edges to the atlas dimensions with only a warning and returns
the truncated chunk; it errors exactly when the coordinate is outside the
6×5 grid or the clamping inverts the box (atlas width < `x·1000` or atlas
height < `(4−y)·1000`), where Pillow's `crop` raises and the `except`
returns `None`. -/
theorem C3_amended_clamping :
    (∀ (x y : Int) (bg : Image),
        (get_background_chunk x y bg).isSome ↔
          0 ≤ x ∧ x ≤ 5 ∧ 0 ≤ y ∧ y ≤ 4 ∧
          x * 1000 ≤ (bg.width : Int) ∧ (4 - y) * 1000 ≤ (bg.height : Int)) ∧
    (∀ (x y : Int) (bg : Image),
        x * 1000 + 1000 > (bg.width : Int) ∨
          (4 - y) * 1000 + 1000 > (bg.height : Int) →
        get_background_chunk_old x y bg = none) := by
  constructor
  · intro x y bg
    unfold get_background_chunk
    split_ifs with hgrid
    · simp only [Option.isSome_none, Bool.false_eq_true, false_iff]
      omega
    · dsimp only
      split_ifs with hraise
      · simp only [Option.isSome_none, Bool.false_eq_true, false_iff]
        omega
      · simp only [Option.isSome_some, true_iff]
        omega
  · intro x y bg h
    unfold get_background_chunk_old
    dsimp only
    split_ifs with hbox
    · exfalso; omega
    · rfl

theorem C3_amended_clamping_witness :
    (get_background_chunk 0 0 bgConst).isSome ∧
    (get_background_chunk 0 0 bgShort).isSome = false ∧
    get_background_chunk_old 5 4 bgNarrow = none := by
  refine ⟨(C3_amended_clamping.1 0 0 bgConst).mpr (by decide), ?_,
    C3_amended_clamping.2 5 4 bgNarrow (Or.inl (by decide))⟩
  cases h : (get_background_chunk 0 0 bgShort).isSome with
  | false => rfl
  | true => exact absurd ((C3_amended_clamping.1 0 0 bgShort).mp h) (by decide)

/-- C6 counterexample: on the 5500-wide atlas (size mismatch is only a
warning), the background chunk for `(5, 0)` succeeds, yet the composed raster
at the lowest floor is 500 pixels wide, not the canonical 1000. -/
theorem C6_counterexample :
    (get_background_chunk 5 0 bgNarrow).isSome = true ∧
    (processFloor (fun _ => none) (fun _ => true) 5 0 0
        (get_background_chunk 5 0 bgNarrow) ⟨[], 0, 0⟩).2.map Image.width ≠
      some 1000 := by
  decide

/-- C6 amended: whenever the background chunk for `(x, y)` succeeds, the
floor at the bottom of the column always produces a composed raster, whose
dimensions equal the chunk's dimensions; those equal the canonical 1000×1000
whenever the loaded atlas is at least the expected 6000×5000, but a smaller
atlas yields a clamped, smaller chunk and hence a smaller composed raster. -/
theorem C6_amended_base_floor :
    ∀ (bg : Image) (x y : Int) (c : Image),
      get_background_chunk x y bg = some c →
      ∀ (frag : Coord → Option (Option Image)) (saveOK : Coord → Bool)
        (z : Int) (st : ExtractState),
        (processFloor frag saveOK x y z (some c) st).2 =
          some (composeResult c (frag (x, y, z))).1 ∧
        (composeResult c (frag (x, y, z))).1.width = c.width ∧
        (composeResult c (frag (x, y, z))).1.height = c.height ∧
        (6000 ≤ bg.width → 5000 ≤ bg.height → c.width = 1000 ∧ c.height = 1000) := by
  intro bg x y c hc frag saveOK z st
  refine ⟨rfl, (composeResult_dims c _).1, (composeResult_dims c _).2, ?_⟩
  intro hbw hbh
  unfold get_background_chunk at hc
  split_ifs at hc with hgrid
  dsimp only at hc
  split_ifs at hc with hraise
  have hcc := Option.some.inj hc
  subst hcc
  refine ⟨?_, ?_⟩ <;> simp only [cropI] <;> omega

theorem C6_amended_base_floor_witness :
    (processFloor (fun _ => none) (fun _ => true) 0 0 0
        (some ((get_background_chunk 0 0 bgConst).getD default)) ⟨[], 0, 0⟩).2 =
      some (composeResult ((get_background_chunk 0 0 bgConst).getD default) none).1 ∧
    ((get_background_chunk 0 0 bgConst).getD default).width = 1000 ∧
    ((get_background_chunk 0 0 bgConst).getD default).height = 1000 := by
  have hc : get_background_chunk 0 0 bgConst =
      some ((get_background_chunk 0 0 bgConst).getD default) := by
    cases hgb : get_background_chunk 0 0 bgConst with
    | none =>
        have hs : (get_background_chunk 0 0 bgConst).isSome = true := by decide
        rw [hgb] at hs
        simp at hs
    | some v => rfl
  have t := C6_amended_base_floor bgConst 0 0
    ((get_background_chunk 0 0 bgConst).getD default) hc
    (fun _ => none) (fun _ => true) 0 ⟨[], 0, 0⟩
  have hd := t.2.2.2 (by decide) (by decide)
  exact ⟨t.1, hd.1, hd.2⟩

/-- C9 counterexample: against a clamped, non-canonical 500×1000 base (which
the pipeline produces whenever the atlas is narrower than expected), a fully
opaque canonical-size decoded tile does not yield a composed raster
pixel-equal to the tile — the paste keeps the base's 500-pixel width. -/
theorem C9_counterexample :
    ¬ imgEq (composeResult base500 (some (some tileOpaque))).1 tileOpaque := by
  intro h
  have h1 := h.1
  have hcomp : composeResult base500 (some (some tileOpaque)) =
      (pasteMask base500 tileOpaque, 0) := by
    simp [composeResult, load_tile_from_minimap, tileOpaque]
  rw [hcomp] at h1
  simp [pasteMask, base500, tileOpaque] at h1

/-- C9 amended: when the base raster itself has the canonical 1000×1000 size
(as it does whenever the atlas has at least the expected size) and the
fragment decodes to a fully opaque canonical-size 8-bit raster, the composed
result is pixel-for-pixel equal to the decoded raster — the base is fully
occluded. -/
theorem C9_amended_roundtrip :
    ∀ (base tile : Image),
      base.width = 1000 → base.height = 1000 →
      tile.width = 1000 → tile.height = 1000 →
      (∀ x < 1000, ∀ y < 1000, (tile.pix x y).a = 255 ∧ (tile.pix x y).valid) →
      imgEq (composeResult base (some (some tile))).1 tile := by
  intro base tile hbw hbh htw hth hop
  have hcomp : composeResult base (some (some tile)) = (pasteMask base tile, 0) := by
    simp [composeResult, load_tile_from_minimap, htw, hth]
  rw [hcomp]
  refine ⟨by simp [pasteMask, hbw, htw], by simp [pasteMask, hbh, hth], ?_⟩
  intro px hx py hy
  have hx' : px < 1000 := by simpa [pasteMask, hbw] using hx
  have hy' : py < 1000 := by simpa [pasteMask, hbh] using hy
  have hp := hop px hx' py hy'
  show (if px < tile.width ∧ py < tile.height then
      blendPix (base.pix px py) (tile.pix px py) else base.pix px py) = tile.pix px py
  rw [if_pos ⟨by rw [htw]; exact hx', by rw [hth]; exact hy'⟩]
  exact blendPix_opaque _ _ hp.2 hp.1

theorem C9_amended_roundtrip_witness :
    imgEq (composeResult base1000 (some (some tileOpaque))).1 tileOpaque :=
  C9_amended_roundtrip base1000 tileOpaque rfl rfl rfl rfl
    (fun _ _ _ _ => ⟨rfl, by simp [tileOpaque, Pixel.valid]⟩)

/-- C5: per-floor composition semantics at object level.  With a live base
object, the compose step (a) never mutates the base object, (b) produces a
fresh result object: a plain copy of the base with no error when no fragment
file exists, a copy of the base with one recoverable error when the tile
fails to load, and the decoded tile alpha-pasted at the origin onto a copy of
the base (the tile's own alpha as mask) with no error when it decodes. -/
theorem C5_compose_object_semantics :
    ∀ (s : Store) (baseId : Nat) (frag : Option (Option Image)),
      baseId < s.imgs.length →
      (composeObj s baseId frag).1.get baseId = s.get baseId ∧
      (composeObj s baseId frag).2.1 ≠ baseId ∧
      (frag = none →
        (composeObj s baseId frag).1.get (composeObj s baseId frag).2.1 =
          s.get baseId ∧
        (composeObj s baseId frag).2.2 = 0) ∧
      (∀ d, frag = some d → load_tile_from_minimap d 1000 1000 = none →
        (composeObj s baseId frag).1.get (composeObj s baseId frag).2.1 =
          s.get baseId ∧
        (composeObj s baseId frag).2.2 = 1) ∧
      (∀ d tile, frag = some d → load_tile_from_minimap d 1000 1000 = some tile →
        (composeObj s baseId frag).1.get (composeObj s baseId frag).2.1 =
          pasteMask (s.get baseId) tile ∧
        (composeObj s baseId frag).2.2 = 0) := by
  intro s baseId frag h
  have hlen : s.imgs.length ≠ baseId := Nat.ne_of_gt h
  cases frag with
  | none =>
      refine ⟨?_, hlen, fun _ => ⟨?_, rfl⟩, ?_, ?_⟩
      · exact listGetD_append_left s.imgs (s.get baseId) default baseId h
      · exact listGetD_append_self s.imgs (s.get baseId) default
      · intro d hd; exact absurd hd (by simp)
      · intro d tile hd; exact absurd hd (by simp)
  | some d =>
      cases hl : load_tile_from_minimap d 1000 1000 with
      | none =>
          have hco : composeObj s baseId (some d) =
              (⟨s.imgs ++ [s.get baseId]⟩, s.imgs.length, 1) := by
            simp [composeObj, hl, Store.copyFrom]
          rw [hco]
          refine ⟨?_, hlen, ?_, ?_, ?_⟩
          · exact listGetD_append_left s.imgs (s.get baseId) default baseId h
          · intro hd; exact absurd hd (by simp)
          · intro d' hd' _
            exact ⟨listGetD_append_self s.imgs (s.get baseId) default, rfl⟩
          · intro d' tile hd' hl'
            have : d' = d := by injection hd' with h'; exact h'.symm
            subst this
            rw [hl] at hl'
            exact absurd hl' (by simp)
      | some tile =>
          have hbase : (s.imgs ++ [s.get baseId]).getD s.imgs.length default =
              s.get baseId := listGetD_append_self s.imgs (s.get baseId) default
          have hco : composeObj s baseId (some d) =
              (⟨(s.imgs ++ [s.get baseId]).set s.imgs.length
                  (pasteMask (s.get baseId) tile)⟩, s.imgs.length, 0) := by
            simp [composeObj, hl, Store.copyFrom, Store.pasteInto, Store.get, hbase]
          rw [hco]
          refine ⟨?_, hlen, ?_, ?_, ?_⟩
          · show ((s.imgs ++ [s.get baseId]).set s.imgs.length
                (pasteMask (s.get baseId) tile)).getD baseId default = s.get baseId
            rw [listGetD_set_ne _ _ _ _ _ hlen]
            exact listGetD_append_left s.imgs (s.get baseId) default baseId h
          · intro hd; exact absurd hd (by simp)
          · intro d' hd' hl'
            have : d' = d := by injection hd' with h'; exact h'.symm
            subst this
            rw [hl] at hl'
            exact absurd hl' (by simp)
          · intro d' tile' hd' hl'
            have hdd : d' = d := by injection hd' with h'; exact h'.symm
            subst hdd
            rw [hl] at hl'
            injection hl' with htt
            rw [← htt]
            refine ⟨?_, rfl⟩
            show ((s.imgs ++ [s.get baseId]).set s.imgs.length
                (pasteMask (s.get baseId) tile)).getD s.imgs.length default =
              pasteMask (s.get baseId) tile
            exact listGetD_set_self _ _ _ _ (by simp)

theorem C5_compose_object_semantics_witness :
    (composeObj ⟨[base1000]⟩ 0 (some (some tileOpaque))).1.get
        (composeObj ⟨[base1000]⟩ 0 (some (some tileOpaque))).2.1 =
      pasteMask (Store.get ⟨[base1000]⟩ 0) tileOpaque ∧
    (composeObj ⟨[base1000]⟩ 0 (some (some tileOpaque))).2.2 = 0 ∧
    (composeObj ⟨[base1000]⟩ 0 (some (some tileOpaque))).1.get 0 =
      Store.get ⟨[base1000]⟩ 0 :=
  have t := C5_compose_object_semantics ⟨[base1000]⟩ 0 (some (some tileOpaque))
    (by simp)
  have c := t.2.2.2.2 (some tileOpaque) tileOpaque rfl
    (by simp [load_tile_from_minimap, tileOpaque])
  ⟨c.1, c.2, t.1⟩

/-- C1 counterexample: with a save failure at `(0, 0, 0)` (all else healthy),
floor `(0, 0, 0)` is composed (a result raster exists) yet no cache entry is
written for it, and the full run then leaves both `(0, 0, 0)` and `(0, 0, 1)`
out of the cache with two recorded errors — floor 1's base lookup fails, so
a persist failure does prevent floor `z + 1` from finding its base. -/
theorem C1_counterexample :
    (processFloor (fun _ => none) saveFail000 0 0 0
        (get_background_chunk 0 0 bgConst) ⟨[], 0, 0⟩).2.isSome = true ∧
    ((processFloor (fun _ => none) saveFail000 0 0 0
        (get_background_chunk 0 0 bgConst) ⟨[], 0, 0⟩).1.cache.lookup
        ((0 : Int), (0 : Int), (0 : Int))).isNone = true ∧
    ((extract_main bgConst (fun _ => none) saveFail000 0 1).cache.lookup
        ((0 : Int), (0 : Int), (0 : Int))).isNone = true ∧
    ((extract_main bgConst (fun _ => none) saveFail000 0 1).cache.lookup
        ((0 : Int), (0 : Int), (1 : Int))).isNone = true ∧
    (extract_main bgConst (fun _ => none) saveFail000 0 1).errors = 2 := by
  decide

/-- C1 amended: the composed raster is written to the LayerCache exactly when
persisting it succeeds.  On a successful save the entry is prepended once; on
a persist failure the cache is left unchanged (so the entry for that
coordinate is absent and floor `z + 1` will not find its base there) and one
more error is recorded on top of any compose-phase error. -/
theorem C1_amended_cache_on_save :
    ∀ (frag : Coord → Option (Option Image)) (saveOK : Coord → Bool)
      (x y z : Int) (base : Image) (st : ExtractState),
      (saveOK (x, y, z) = true →
        (processFloor frag saveOK x y z (some base) st).1.cache =
          ((x, y, z), (composeResult base (frag (x, y, z))).1) :: st.cache) ∧
      (saveOK (x, y, z) = false →
        (processFloor frag saveOK x y z (some base) st).1.cache = st.cache ∧
        (processFloor frag saveOK x y z (some base) st).1.errors =
          st.errors + (composeResult base (frag (x, y, z))).2 + 1) := by
  intro frag saveOK x y z base st
  constructor
  · intro hs
    simp [processFloor, saveAndCache, hs]
  · intro hs
    constructor <;> simp [processFloor, saveAndCache, hs]

theorem C1_amended_cache_on_save_witness :
    (processFloor (fun _ => none) (fun _ => false) 0 0 0 (some base1000)
        ⟨[], 0, 0⟩).1.cache = [] ∧
    (processFloor (fun _ => none) (fun _ => false) 0 0 0 (some base1000)
        ⟨[], 0, 0⟩).1.errors = 1 :=
  have t := (C1_amended_cache_on_save (fun _ => none) (fun _ => false)
    0 0 0 base1000 ⟨[], 0, 0⟩).2 rfl
  ⟨t.1, t.2⟩

/-- C2: the cascade invariant of the Z loop.  For a floor above the lowest
one, a composed raster is produced exactly when the cache holds the entry for
`z − 1` at the time floor `z` is processed; when that entry is absent, the
step records exactly one recoverable error, changes nothing else (in
particular caches nothing at `z` and sets no broken flag — the state has no
such field), and the loop goes on to the remaining floors from that state. -/
theorem C2_cascade_invariant :
    ∀ (frag : Coord → Option (Option Image)) (saveOK : Coord → Bool)
      (x y minZ : Int) (chunk : Image) (z : Int) (st : ExtractState),
      z ≠ minZ →
      ((processFloor frag saveOK x y z (st.cache.lookup (x, y, z - 1)) st).2.isSome
          ↔ (st.cache.lookup (x, y, z - 1)).isSome) ∧
      (st.cache.lookup (x, y, z - 1) = none →
        floorStep frag saveOK x y minZ chunk st z =
          { st with errors := st.errors + 1 } ∧
        ∀ zs, processFloors frag saveOK x y minZ chunk st (z :: zs) =
          processFloors frag saveOK x y minZ chunk
            { st with errors := st.errors + 1 } zs) := by
  intro frag saveOK x y minZ chunk z st hz
  constructor
  · cases hb : st.cache.lookup (x, y, z - 1) with
    | none => simp [processFloor]
    | some base => simp [processFloor]
  · intro hb
    have hstep : floorStep frag saveOK x y minZ chunk st z =
        { st with errors := st.errors + 1 } := by
      unfold floorStep
      rw [if_neg hz, hb]
      rfl
    exact ⟨hstep, fun zs => by
      show processFloors frag saveOK x y minZ chunk
          (floorStep frag saveOK x y minZ chunk st z) zs = _
      rw [hstep]⟩

theorem C2_cascade_invariant_witness :
    floorStep (fun _ => none) (fun _ => true) 0 0 0 base1000 ⟨[], 0, 0⟩ 1 =
      ⟨[], 0, 1⟩ ∧
    ((processFloor (fun _ => none) (fun _ => true) 0 0 1
        ((⟨[], 0, 0⟩ : ExtractState).cache.lookup (0, 0, 1 - 1))
        ⟨[], 0, 0⟩).2.isSome ↔
      (((⟨[], 0, 0⟩ : ExtractState).cache.lookup
        ((0 : Int), (0 : Int), 1 - 1)).isSome)) :=
  have t := C2_cascade_invariant (fun _ => none) (fun _ => true) 0 0 0 base1000 1
    ⟨[], 0, 0⟩ (by decide)
  ⟨(t.2 rfl).1, t.1⟩

/-- A combined background+tile chunk is always exactly `tw`×`th`: the crop box
has that size by construction and the masked paste keeps its base's size. -/
theorem tileChunk_width (bg : Image) (tw th : Nat) (z x y : Int) (tile : Image) :
    (tileChunk bg tw th z x y tile).width = tw := by
  unfold tileChunk
  dsimp only
  simp only [pasteMask]
  split_ifs <;> simp only [grayImage, cropI] <;> omega

theorem tileChunk_height (bg : Image) (tw th : Nat) (z x y : Int) (tile : Image) :
    (tileChunk bg tw th z x y tile).height = th := by
  unfold tileChunk
  dsimp only
  simp only [pasteMask]
  split_ifs <;> simp only [grayImage, cropI] <;> omega

/-- Placing tiles never changes the canvas dimensions. -/
theorem placeTile_foldl_dims (bg : Image) (tw th : Nat) (z minX maxY : Int)
    (tiles : List ((Int × Int) × Option Image)) (cv : Image) :
    (tiles.foldl (placeTile bg tw th z minX maxY) cv).width = cv.width ∧
    (tiles.foldl (placeTile bg tw th z minX maxY) cv).height = cv.height := by
  induction tiles generalizing cv with
  | nil => exact ⟨rfl, rfl⟩
  | cons t ts ih =>
      obtain ⟨xy, o⟩ := t
      cases o with
      | none => exact ih cv
      | some tile =>
          refine ⟨?_, ?_⟩ <;>
            simp only [List.foldl_cons, placeTile] <;>
            simp [ih, pasteRegion]

/-- The cover scan with an arbitrary accumulator factors through the scan
started from `none`. -/
theorem coverUpd_foldl_acc (tw th : Nat) (minX maxY : Int) (i j : Nat)
    (tiles : List ((Int × Int) × Option Image))
    (acc : Option ((Int × Int) × Image)) :
    tiles.foldl (coverUpd tw th minX maxY i j) acc =
      match tiles.foldl (coverUpd tw th minX maxY i j) none with
      | some r => some r
      | none => acc := by
  induction tiles generalizing acc with
  | nil => rfl
  | cons t ts ih =>
      simp only [List.foldl_cons]
      rw [ih (coverUpd tw th minX maxY i j acc t),
        ih (coverUpd tw th minX maxY i j none t)]
      cases hts : ts.foldl (coverUpd tw th minX maxY i j) none with
      | some r => rfl
      | none =>
          obtain ⟨xy, o⟩ := t
          cases o with
          | none => rfl
          | some tile =>
              simp only [coverUpd]
              split_ifs <;> rfl

/-- The pixel content of the placement loop: a pixel shows the combined chunk
of the last readable tile covering it, and the initial canvas elsewhere. -/
theorem placeTile_foldl_pix (bg : Image) (tw th : Nat) (z minX maxY : Int)
    (tiles : List ((Int × Int) × Option Image)) (cv : Image) (i j : Nat) :
    (tiles.foldl (placeTile bg tw th z minX maxY) cv).pix i j =
      match lastCover tw th minX maxY tiles i j with
      | some r => (tileChunk bg tw th z r.1.1 r.1.2 r.2).pix
          ((i : Int) - (r.1.1 - minX) * tw).toNat
          ((j : Int) - (maxY - r.1.2) * th).toNat
      | none => cv.pix i j := by
  induction tiles generalizing cv with
  | nil => rfl
  | cons t ts ih =>
      simp only [List.foldl_cons]
      rw [ih (placeTile bg tw th z minX maxY cv t)]
      have hcover : lastCover tw th minX maxY (t :: ts) i j =
          match lastCover tw th minX maxY ts i j with
          | some r => some r
          | none => coverUpd tw th minX maxY i j none t := by
        show ts.foldl (coverUpd tw th minX maxY i j)
            (coverUpd tw th minX maxY i j none t) = _
        rw [coverUpd_foldl_acc]
        rfl
      rw [hcover]
      cases hts : lastCover tw th minX maxY ts i j with
      | some r => rfl
      | none =>
          obtain ⟨xy, o⟩ := t
          cases o with
          | none => rfl
          | some tile =>
              show (pasteRegion cv (tileChunk bg tw th z xy.1 xy.2 tile)
                  ((xy.1 - minX) * tw) ((maxY - xy.2) * th)).pix i j =
                match coverUpd tw th minX maxY i j none (xy, some tile) with
                | some r => (tileChunk bg tw th z r.1.1 r.1.2 r.2).pix
                    ((i : Int) - (r.1.1 - minX) * tw).toNat
                    ((j : Int) - (maxY - r.1.2) * th).toNat
                | none => cv.pix i j
              simp only [coverUpd, pasteRegion, tileChunk_width, tileChunk_height]
              split_ifs <;> rfl

/-- C4 counterexample: for a floor with one readable 1×1 tile whose only
pixel is fully transparent, the mosaic pixel at that tile's position is the
(opaque) background-atlas pixel — not the tile's own pixel, and not the
transparent pixel that pasting the tile itself onto a transparent canvas
would leave there. -/
theorem C4_counterexample :
    (stitch_layer [((0, 0), some tileClear1)] 1 bgConst).map
        (fun r => r.1.pix 0 0) = some ⟨10, 20, 30, 255⟩ ∧
    (⟨10, 20, 30, 255⟩ : Pixel) ≠ tileClear1.pix 0 0 ∧
    (⟨10, 20, 30, 255⟩ : Pixel) ≠ clearPix ∧
    (⟨10, 20, 30, 255⟩ : Pixel) ≠ blendPix clearPix (tileClear1.pix 0 0) := by
  decide

/-- C4 amended: `stitch_layer` returns absent for a floor with no tiles (and
also when the floor's first tile image is unreadable); otherwise it allocates
a fully transparent canvas of `(maxX−minX+1)·tw` by `(maxY−minY+1)·th` over
the bounding box of the floor's tiles (`tw`, `th` taken from the first tile)
and fills the rectangle at `((x−minX)·tw, (maxY−y)·th)` of each readable tile
with that tile pasted over its background-atlas chunk — an opaque combined
chunk, not the bare tile — later tiles overwriting earlier ones on overlap;
pixels covered by no tile stay transparent. -/
theorem C4_amended_layer_mosaic :
    ∀ (bg : Image) (z x0 y0 : Int) (f0 : Image)
      (rest : List ((Int × Int) × Option Image)),
      stitch_layer [] z bg = none ∧
      stitch_layer (((x0, y0), (none : Option Image)) :: rest) z bg = none ∧
      (let tiles := ((x0, y0), some f0) :: rest
       let xs := tiles.map fun t => t.1.1
       let ys := tiles.map fun t => t.1.2
       let minX := listMinI x0 xs
       let maxX := listMaxI x0 xs
       let minY := listMinI y0 ys
       let maxY := listMaxI y0 ys
       let tw := f0.width
       let th := f0.height
       stitch_layer tiles z bg =
         some (⟨(maxX - minX + 1).toNat * tw, (maxY - minY + 1).toNat * th,
           fun i j =>
             match lastCover tw th minX maxY tiles i j with
             | some r => (tileChunk bg tw th z r.1.1 r.1.2 r.2).pix
                 ((i : Int) - (r.1.1 - minX) * tw).toNat
                 ((j : Int) - (maxY - r.1.2) * th).toNat
             | none => clearPix⟩,
          minX, minY, maxY)) := by
  intro bg z x0 y0 f0 rest
  refine ⟨rfl, rfl, ?_⟩
  dsimp only
  show some _ = some _
  refine congrArg some ?_
  have hdims := placeTile_foldl_dims bg f0.width f0.height z
    (listMinI x0 ((((x0, y0), some f0) :: rest).map fun t => t.1.1))
    (listMaxI y0 ((((x0, y0), some f0) :: rest).map fun t => t.1.2))
    (((x0, y0), some f0) :: rest)
    ⟨(listMaxI x0 ((((x0, y0), some f0) :: rest).map fun t => t.1.1) -
        listMinI x0 ((((x0, y0), some f0) :: rest).map fun t => t.1.1) + 1).toNat *
        f0.width,
     (listMaxI y0 ((((x0, y0), some f0) :: rest).map fun t => t.1.2) -
        listMinI y0 ((((x0, y0), some f0) :: rest).map fun t => t.1.2) + 1).toNat *
        f0.height,
     fun _ _ => clearPix⟩
  refine congrArg (fun img => (img, _, _, _)) ?_
  refine Image.ext_pix hdims.1 hdims.2 ?_
  funext i j
  exact placeTile_foldl_pix bg f0.width f0.height z _ _ _ _ i j

/-- PIL's luma of an 8-bit pixel is itself 8-bit. -/
theorem pilLuma_le255 (p : Pixel) (h : p.valid) : pilLuma p ≤ 255 := by
  obtain ⟨h1, h2, h3, _⟩ := h
  unfold pilLuma
  omega

theorem grayPix_valid (p : Pixel) (h : p.valid) : (grayPix p).valid :=
  ⟨pilLuma_le255 p h, pilLuma_le255 p h, pilLuma_le255 p h, le_refl 255⟩

theorem insertSorted_ne_nil (z : Int) (l : List Int) : insertSorted z l ≠ [] := by
  cases l with
  | nil => simp [insertSorted]
  | cons w ws => unfold insertSorted; split_ifs <;> simp

theorem sortInts_ne_nil (l : List Int) (h : l ≠ []) : sortInts l ≠ [] := by
  cases l with
  | nil => exact absurd rfl h
  | cons a t =>
      show insertSorted a (sortInts t) ≠ []
      exact insertSorted_ne_nil a (sortInts t)

theorem sortedLayers_ne_nil (f : TFile) (fs : List TFile) :
    sortedLayers (f :: fs) ≠ [] := by
  unfold sortedLayers
  apply sortInts_ne_nil
  simp [List.dedup_eq_nil]

/-- A floor whose tile files are all unreadable stitches to absent. -/
theorem stitch_layer_none_of_unreadable
    (tiles : List ((Int × Int) × Option Image)) (z : Int) (bg : Image)
    (h : ∀ t ∈ tiles, t.2 = (none : Option Image)) :
    stitch_layer tiles z bg = none := by
  cases tiles with
  | nil => rfl
  | cons t ts =>
      obtain ⟨xy, o⟩ := t
      have h0 := h (xy, o) (List.mem_cons_self _ _)
      dsimp at h0
      subst h0
      rfl

theorem tilesForLayer_unreadable (files : List TFile) (z : Int)
    (h : ∀ t ∈ files, t.2 = (none : Option Image)) :
    ∀ t ∈ tilesForLayer files z, t.2 = (none : Option Image) := by
  intro t ht
  unfold tilesForLayer at ht
  rcases List.mem_map.mp ht with ⟨f, hf, rfl⟩
  exact h f (List.mem_of_mem_filter hf)

/-- When every floor stitches to absent, the stitch-and-save loop is a no-op. -/
theorem layerSaveStep_fold_idle (files : List TFile) (bg : Image)
    (lOK : Int → Bool) (zs : List Int)
    (h : ∀ z ∈ zs, stitch_layer (tilesForLayer files z) z bg = none)
    (acc : List (Int × Image) × Nat) :
    zs.foldl (layerSaveStep files bg lOK) acc = acc := by
  induction zs generalizing acc with
  | nil => rfl
  | cons w ws ih =>
      simp only [List.foldl_cons]
      have hstep : layerSaveStep files bg lOK acc w = acc := by
        unfold layerSaveStep
        rw [h w (List.mem_cons_self _ _)]
      rw [hstep]
      exact ih (fun z hz => h z (List.mem_cons_of_mem _ hz)) acc

/-- Every mosaic the stitch-and-save loop accumulates comes from a successful
`stitch_layer` call on its own floor. -/
theorem layerSaveStep_fold_mem (files : List TFile) (bg : Image)
    (lOK : Int → Bool) (zs : List Int) (acc : List (Int × Image) × Nat)
    (z : Int) (out : Image)
    (h : (z, out) ∈ (zs.foldl (layerSaveStep files bg lOK) acc).1) :
    (z, out) ∈ acc.1 ∨
      ∃ mX mY MY, stitch_layer (tilesForLayer files z) z bg =
        some (out, mX, mY, MY) := by
  induction zs generalizing acc with
  | nil => exact Or.inl h
  | cons w ws ih =>
      simp only [List.foldl_cons] at h
      rcases ih (layerSaveStep files bg lOK acc w) h with hmem | hex
      · unfold layerSaveStep at hmem
        cases hsl : stitch_layer (tilesForLayer files w) w bg with
        | none => rw [hsl] at hmem; exact Or.inl hmem
        | some r =>
            rw [hsl] at hmem
            dsimp only at hmem
            by_cases hlo : lOK w
            · rw [if_pos hlo] at hmem
              rcases List.mem_append.mp hmem with h1 | h2
              · exact Or.inl h1
              · have heq := List.mem_singleton.mp h2
                rw [Prod.ext_iff] at heq
                obtain ⟨hz, hout⟩ := heq
                dsimp at hz hout
                subst hz
                subst hout
                exact Or.inr ⟨r.2.1, r.2.2.1, r.2.2.2, by rw [hsl]⟩
            · rw [if_neg hlo] at hmem
              exact Or.inl hmem
      · exact Or.inr hex

/-- C7 counterexample: one input file whose tile is unreadable, so no valid
tile exists anywhere to determine the tile size.  The claim requires a fatal
configuration abort with a nonzero exit; instead the run finishes with exit
code 0, silently producing no composite and no layer mosaics. -/
theorem C7_counterexample :
    stitch_exit (stitch_main filesBad bgConst true (fun _ => true)) = 0 ∧
    (stitch_main filesBad bgConst true (fun _ => true)).savedComposite = false ∧
    (stitch_main filesBad bgConst true (fun _ => true)).savedLayers.isEmpty
      = true ∧
    (create_composite filesBad (sortedLayers filesBad) bgConst).isNone = true := by
  decide

/-- C7 amended: an undeterminable tile size is not fatal.  `main` returns an
error only for an empty input listing; otherwise, when no tile raster is
readable, `create_composite` merely returns absent (first conjunct below
covers its first-file check), the run still walks every floor (each stitching
to absent as well), writes nothing, counts zero errors, and exits 0. -/
theorem C7_amended_no_abort :
    (∀ (bg : Image) (cOK : Bool) (lOK : Int → Bool),
        stitch_main [] bg cOK lOK = ⟨false, [], 1⟩) ∧
    (∀ (c : Coord) (rest : List TFile) (bg : Image) (zs : List Int),
        create_composite ((c, (none : Option Image)) :: rest) zs bg = none) ∧
    (∀ (files : List TFile) (bg : Image) (cOK : Bool) (lOK : Int → Bool),
        files ≠ [] → (∀ t ∈ files, t.2 = (none : Option Image)) →
        (stitch_main files bg cOK lOK).savedComposite = false ∧
        (stitch_main files bg cOK lOK).savedLayers = [] ∧
        (stitch_main files bg cOK lOK).errors = 0 ∧
        stitch_exit (stitch_main files bg cOK lOK) = 0) := by
  refine ⟨fun bg cOK lOK => rfl, fun c rest bg zs => rfl, ?_⟩
  intro files bg cOK lOK hne hall
  cases files with
  | nil => exact absurd rfl hne
  | cons f fs =>
      have hcomp : create_composite (f :: fs) (sortedLayers (f :: fs)) bg
          = none := by
        obtain ⟨cc, oo⟩ := f
        have h0 := hall (cc, oo) (List.mem_cons_self _ _)
        dsimp at h0
        subst h0
        rfl
      have hnone : ∀ z ∈ sortedLayers (f :: fs),
          stitch_layer (tilesForLayer (f :: fs) z) z bg = none :=
        fun z _ => stitch_layer_none_of_unreadable _ z bg
          (tilesForLayer_unreadable _ z hall)
      have hrun := layerSaveStep_fold_idle (f :: fs) bg lOK
        (sortedLayers (f :: fs)) hnone ([], 0)
      have hzse : (sortedLayers (f :: fs)).isEmpty = false := by
        cases hh : sortedLayers (f :: fs) with
        | nil => exact absurd hh (sortedLayers_ne_nil f fs)
        | cons a t => rfl
      have hsm : stitch_main (f :: fs) bg cOK lOK = ⟨false, [], 0⟩ := by
        unfold stitch_main
        rw [if_neg (by simp), if_neg (by simp [hzse])]
        dsimp only
        rw [hcomp, hrun]
        rfl
      rw [hsm]
      exact ⟨rfl, rfl, rfl, rfl⟩

theorem C7_amended_no_abort_witness :
    (stitch_main filesBad bgConst true (fun _ => true)).savedComposite = false ∧
    (stitch_main filesBad bgConst true (fun _ => true)).savedLayers = [] ∧
    (stitch_main filesBad bgConst true (fun _ => true)).errors = 0 ∧
    stitch_exit (stitch_main filesBad bgConst true (fun _ => true)) = 0 :=
  C7_amended_no_abort.2.2 filesBad bgConst true (fun _ => true)
    (by simp [filesBad])
    (by
      intro t ht
      simp only [filesBad, List.mem_singleton] at ht
      subst ht
      rfl)

/-- C8 counterexample: one readable tile, so the composite is created; its
save fails (`compositeSaveOK = false`, a recoverable error per the claim),
yet the stage's error count stays 0 and the exit code is 0. -/
theorem C8_counterexample :
    (create_composite files1 (sortedLayers files1) bgConst).isSome = true ∧
    (stitch_main files1 bgConst false (fun _ => true)).savedComposite = false ∧
    (stitch_main files1 bgConst false (fun _ => true)).errors = 0 ∧
    stitch_exit (stitch_main files1 bgConst false (fun _ => true)) = 0 := by
  decide

/-- C8 amended: the extract stage's exit code is 0 exactly when its error
count is 0 (every recoverable error it records counts).  The stitch stage's
exit code reflects only layer-mosaic save failures: its error count is
independent of the composite-save outcome, and the exit code is 0 exactly
when that count is 0. -/
theorem C8_amended_exit_codes :
    (∀ (bg : Image) (frag : Coord → Option (Option Image))
        (saveOK : Coord → Bool) (minZ maxZ : Int),
        extract_exit bg frag saveOK minZ maxZ = 0 ↔
          (extract_main bg frag saveOK minZ maxZ).errors = 0) ∧
    (∀ (files : List TFile) (bg : Image) (cOK cOK' : Bool) (lOK : Int → Bool),
        (stitch_main files bg cOK lOK).errors =
          (stitch_main files bg cOK' lOK).errors) ∧
    (∀ (files : List TFile) (bg : Image) (cOK : Bool) (lOK : Int → Bool),
        stitch_exit (stitch_main files bg cOK lOK) = 0 ↔
          (stitch_main files bg cOK lOK).errors = 0) := by
  refine ⟨?_, ?_, ?_⟩
  · intro bg frag saveOK minZ maxZ
    unfold extract_exit
    split_ifs with h <;> simp <;> omega
  · intro files bg cOK cOK' lOK
    unfold stitch_main
    dsimp only
    split_ifs <;> rfl
  · intro files bg cOK lOK
    unfold stitch_exit
    split_ifs with h <;> simp <;> omega

/-- C10: for floors below the surface threshold (`z < 1`) the stitching
routine grayscales only the background-derived chunk.  (1) every saved
`layer_z` mosaic is exactly the output of the same `stitch_layer` routine the
composite stack uses, so the effect reaches the standalone layer files;
(2) for `z < 1` the combined chunk is the tile alpha-pasted over the
*grayscaled* background crop; (3) pixel-wise, a fully opaque tile pixel
passes through unchanged (the tile's own pixels are never grayscaled) while
a fully transparent tile pixel shows the grayscaled background pixel. -/
theorem C10_grayscale_below_surface :
    ∀ (files : List TFile) (bg : Image) (cOK : Bool) (lOK : Int → Bool)
      (z : Int) (out : Image),
      ((z, out) ∈ (stitch_main files bg cOK lOK).savedLayers →
        ∃ mX mY MY, stitch_layer (tilesForLayer files z) z bg =
          some (out, mX, mY, MY)) ∧
      (∀ (tw th : Nat) (x y : Int) (tile : Image), z < 1 →
        tileChunk bg tw th z x y tile =
          pasteMask (grayImage (cropI bg (x * tw) ((4 - y) * th)
            (x * tw + tw) ((4 - y) * th + th))) tile) ∧
      (∀ (base tile : Image) (i j : Nat), i < tile.width → j < tile.height →
        ((tile.pix i j).a = 255 → (tile.pix i j).valid →
          (pasteMask (grayImage base) tile).pix i j = tile.pix i j) ∧
        ((tile.pix i j).a = 0 → (base.pix i j).valid →
          (pasteMask (grayImage base) tile).pix i j =
            grayPix (base.pix i j))) := by
  intro files bg cOK lOK z out
  refine ⟨?_, ?_, ?_⟩
  · intro h
    unfold stitch_main at h
    by_cases h1 : files.isEmpty
    · rw [if_pos h1] at h
      simp at h
    · rw [if_neg h1] at h
      dsimp only at h
      by_cases h2 : (sortedLayers files).isEmpty
      · rw [if_pos h2] at h
        simp at h
      · rw [if_neg h2] at h
        rcases layerSaveStep_fold_mem files bg lOK (sortedLayers files)
          ([], 0) z out h with hmem | hex
        · simp at hmem
        · exact hex
  · intro tw th x y tile hz
    unfold tileChunk
    dsimp only
    rw [if_pos hz]
  · intro base tile i j hi hj
    constructor
    · intro ha hv
      show (if i < tile.width ∧ j < tile.height then
          blendPix ((grayImage base).pix i j) (tile.pix i j)
        else (grayImage base).pix i j) = tile.pix i j
      rw [if_pos ⟨hi, hj⟩]
      exact blendPix_opaque _ _ hv ha
    · intro ha hv
      show (if i < tile.width ∧ j < tile.height then
          blendPix ((grayImage base).pix i j) (tile.pix i j)
        else (grayImage base).pix i j) = grayPix (base.pix i j)
      rw [if_pos ⟨hi, hj⟩]
      exact blendPix_clear _ _ (grayPix_valid _ hv) ha

theorem C10_grayscale_below_surface_witness :
    (∃ mX mY MY, stitch_layer (tilesForLayer files1 0) 0 bgConst =
      some (w10img, mX, mY, MY)) ∧
    tileChunk bgConst 1 1 0 0 0 tile1 =
      pasteMask (grayImage (cropI bgConst 0 4 1 5)) tile1 ∧
    (pasteMask (grayImage base1000) tile1).pix 0 0 = tile1.pix 0 0 :=
  have t := C10_grayscale_below_surface files1 bgConst true (fun _ => true)
    0 w10img
  ⟨t.1 (List.mem_cons_self _ _),
   t.2.1 1 1 0 0 tile1 (by decide),
   (t.2.2 base1000 tile1 0 0 (by decide) (by decide)).1 rfl
     (by simp [tile1, Pixel.valid])⟩
